import Mathlib

/-!
Verification of the `grab` dependency-injection container (package `grab`,
files `grab.go` and its test file) against its natural-language
specification.

The embedding is a shallow one:

* Go `interface{}` values are modelled as `IVal := Option (GoType × Nat)`:
  a dynamic type together with an identity token (the address of the
  underlying object), or `none` for a nil interface.
* A `Grabber` is identified by a natural number (identity-keyed registry);
  its `Grab` method body is a first-order program `Prog` (return a freshly
  allocated value, return nil, return an error, or resolve another grabber
  and continue).
* `Repository` state (`grabbers` cache, `pendding` set, the `sync.RWMutex`)
  is explicit in `State`; the RWMutex is modelled operationally with the
  fault semantics documented for `sync.RWMutex` (`Unlock` of a mutex that
  is not write-locked is a run-time fault, modelled as a panic outcome).
* `Repository.Get` and `assign` are translated line by line into the
  fuel-indexed interpreter `interpGet` / `interpGetCore` / `interpProg`;
  the fuel only bounds the recursion depth of nested `Get` calls issued
  by producers and is otherwise inert (`fuelOut` is an artefact of the
  model, not of the code).
-/

/-- Kinds as distinguished by `reflect.Kind` where the code consults them. -/
inductive GoKind where
  | kptr
  | kiface
  | kstruct
  | kother
deriving DecidableEq, Repr

/-- Dynamic Go types, as far as `assign` inspects them: pointers (with their
element type), interface types (only ever occurring under a pointer, since a
dynamic type of an interface value is never itself an interface), struct
types and other base types, tagged by a number standing for their name. -/
inductive GoType where
  | ptr (elem : GoType)
  | iface
  | struct_ (name : Nat)
  | base (name : Nat)
deriving DecidableEq, Repr

/-- `reflect.Type.Kind()`. -/
def GoType.kind : GoType → GoKind
  | .ptr _ => .kptr
  | .iface => .kiface
  | .struct_ _ => .kstruct
  | .base _ => .kother

/-- A Go `interface{}` value: `none` is the nil interface
(`reflect.TypeOf` returns nil on it), `some (t, a)` carries the dynamic
type `t` and the identity token `a` of the boxed value (for
pointer-shaped values, the address of the referent: two interface values
alias the same instance exactly when their tokens agree). -/
def IVal : Type := Option (GoType × Nat)

instance : DecidableEq IVal := by
  unfold IVal
  infer_instance

/-- The error values of the package: the five sentinel errors of `grab.go`,
the `ErrAlreadyMocked` sentinel referenced by the tests, and
producer-originated errors (`userErr n` stands for the distinct caller
error value number `n`, e.g. `errOops` of `TestInitializationFails`). -/
inductive GErr where
  | srcMustBePointer
  | destMustBeDoublePointer
  | destMustBePointer
  | destInterfaceMustBePointer
  | circularDependency
  | alreadyMocked
  | userErr (n : Nat)
deriving DecidableEq, Repr

/-- Outcome of running a piece of code: normal return of `a`, an error
return (Go `error`), a run-time panic/fatal fault carrying its message, or
exhaustion of the model's recursion fuel (an artefact of the embedding,
never of the code). -/
inductive Out (α : Type) where
  | ok (a : α)
  | err (e : GErr)
  | pan (msg : String)
  | fuelOut
deriving DecidableEq, Repr

/-- State of the `sync.RWMutex`: how many read locks are held and whether
the write lock is held. -/
structure Mtx where
  readers : Nat
  writer : Bool
deriving DecidableEq, Repr

/-- The unlocked mutex. -/
def Mtx.free : Mtx := ⟨0, false⟩

/-- `RLock` under sequential execution: blocks forever (a deadlock, modelled
as an error outcome) if the write lock is held by the same thread, otherwise
takes a read lock. -/
def Mtx.rLock (m : Mtx) : Except String Mtx :=
  if m.writer then .error "deadlock: RLock while Lock held"
  else .ok ⟨m.readers + 1, m.writer⟩

/-- `RUnlock`: a run-time fault if no read lock is held. -/
def Mtx.rUnlock (m : Mtx) : Except String Mtx :=
  match m.readers with
  | 0 => .error "fatal error: sync: RUnlock of unlocked RWMutex"
  | r + 1 => .ok ⟨r, m.writer⟩

/-- `Lock` under sequential execution: blocks forever if any lock is held. -/
def Mtx.wLock (m : Mtx) : Except String Mtx :=
  if m.writer || m.readers != 0 then .error "deadlock: Lock while locked"
  else .ok ⟨m.readers, true⟩

/-- `Unlock`: per the `sync` package documentation, a run-time fault if the
mutex is not locked for writing on entry. -/
def Mtx.wUnlock (m : Mtx) : Except String Mtx :=
  if m.writer then .ok ⟨m.readers, false⟩
  else .error "fatal error: sync: Unlock of unlocked RWMutex"

/-- Association-list lookup, the model of a Go map read `m[k]`. -/
def alookup {α β : Type} [DecidableEq α] (k : α) : List (α × β) → Option β
  | [] => none
  | (k', v) :: rest => if k' = k then some v else alookup k rest

/-- Membership in the pending set (`_, ok := s.pendding[g]`). -/
def pmem (k : Nat) : List Nat → Bool
  | [] => false
  | x :: rest => x == k || pmem k rest

/-- Removal from the pending set (`delete(s.pendding, g)`). -/
def prem (k : Nat) : List Nat → List Nat
  | [] => []
  | x :: rest => if x = k then prem k rest else x :: prem k rest

/-- Number of occurrences of `k` in a call log. -/
def ccount (k : Nat) : List Nat → Nat
  | [] => 0
  | x :: rest => (if x = k then 1 else 0) + ccount k rest

/-- The body of a producer's `Grab` method, as a first-order program:
`ret ty` allocates a fresh instance of dynamic type `ty` and returns it
with a nil error; `retNil` returns `(nil, nil)`; `fail e` returns
`(nil, e)`; `seqGet g k` calls `c.Get(&local, g)` into a producer-local
pointer-to-interface destination, propagates a non-nil error, and
otherwise continues as `k`. -/
inductive Prog where
  | ret (ty : GoType)
  | retNil
  | fail (e : GErr)
  | seqGet (g : Nat) (k : Prog)
deriving DecidableEq, Repr

/-- The environment fixes, for each grabber identity, its `Grab` body and
(for `namedGrabber` values) its name, plus the `predefinedGrabbers` map
built by `New`. -/
structure Env where
  prog : Nat → Prog
  gname : Nat → Option String
  predef : List (String × Nat)

/-- `Repository` state together with the instrumentation the claims need:
`cache` is the `grabbers` map, `pending` the `pendding` map, `heap` maps
caller-side destination-slot addresses to their current contents, `alloc`
is the next fresh identity token, `calls` records (most recent first) each
invocation of a producer's `Grab`, and `mtx` is the `sync.RWMutex`. -/
structure State where
  cache : List (Nat × IVal)
  pending : List Nat
  heap : List (Nat × IVal)
  alloc : Nat
  calls : List Nat
  mtx : Mtx
deriving DecidableEq

/-- The fresh `Repository` built by `New`: empty cache, empty pending set,
unlocked mutex. -/
def State.init : State := ⟨[], [], [], 0, [], Mtx.free⟩

/-- A destination handle passed to `Get`: either a caller-supplied
`interface{}` argument (`ext none` is a nil interface, `ext (some (t, a))`
carries its dynamic type and, when `t` is a pointer type, the heap address
of the slot it points to), or the always well-formed pointer-to-interface
local variable a producer passes to a nested `c.Get(&local, g)`. -/
inductive Dest where
  | ext (v : Option (GoType × Nat))
  | inner
deriving DecidableEq, Repr

/-- `assign(dest, src)` of `grab.go`, checks in source order:
nil `dest` interface, non-pointer `dest`, `dest` pointing to neither an
interface nor a pointer slot, then `reflect.TypeOf(src).Kind()` — which,
when `src` is the nil interface, dereferences a nil `reflect.Type` and
panics before the `ErrSrcMustBePointer` comparison can happen — and
finally the reflective store into the slot `dest` points to. -/
def assignD (dest : Dest) (src : IVal) (s : State) : Out Unit × State :=
  match dest with
  | .ext none => (.err .destInterfaceMustBePointer, s)
  | .ext (some (dt, a)) =>
    match dt with
    | .ptr et =>
      if et.kind = .kiface ∨ et.kind = .kptr then
        match src with
        | none =>
          (.pan "runtime error: invalid memory address or nil pointer dereference", s)
        | some (st, _) =>
          if st.kind = .kptr then (.ok (), { s with heap := (a, src) :: s.heap })
          else (.err .srcMustBePointer, s)
      else (.err .destMustBeDoublePointer, s)
    | _ => (.err .destMustBePointer, s)
  | .inner =>
    match src with
    | none =>
      (.pan "runtime error: invalid memory address or nil pointer dereference", s)
    | some (st, _) =>
      if st.kind = .kptr then (.ok (), s)
      else (.err .srcMustBePointer, s)

/-- Runs a producer's `Grab` body, parameterised by the container's
nested-`Get` capability `get` (which a producer calls with a local
pointer-to-interface destination): `ret ty` allocates a fresh identity
token, `retNil` yields the nil interface with a nil error, `fail e` yields
the error `e`, and `seqGet g k` issues a nested `Get`, propagating any
abnormal outcome and otherwise continuing as `k`. -/
def runProg (get : State → Nat → Out Unit × State) (s : State) : Prog → Out IVal × State
  | .ret ty => (.ok (some (ty, s.alloc)), { s with alloc := s.alloc + 1 })
  | .retNil => (.ok none, s)
  | .fail e => (.err e, s)
  | .seqGet g k =>
    match get s g with
    | (.ok _, s1) => runProg get s1 k
    | (.err e, s1) => (.err e, s1)
    | (.pan msg, s1) => (.pan msg, s1)
    | (.fuelOut, s1) => (.fuelOut, s1)

/-- `Repository.Get(dest, g)` after the predefined-grabber lookup,
parameterised by the nested-`Get` capability handed to producers:
cache lookup under read lock (on a hit, `assign` the cached value);
pending lookup under read lock (on a hit, `ErrCircularDependency`);
mark pending under write lock; run `g.Grab(s)`; on error delete the
pending mark and propagate the error unchanged; on success record the
cache entry and delete the pending mark in one write-locked section,
then `assign` the value. -/
def getCore (get : State → Nat → Out Unit × State) (prog : Nat → Prog)
    (s : State) (dest : Dest) (g : Nat) : Out Unit × State :=
  match s.mtx.rLock with
  | .error msg => (.pan msg, s)
  | .ok m1 =>
    match m1.rUnlock with
    | .error msg => (.pan msg, { s with mtx := m1 })
    | .ok m2 =>
      let s := { s with mtx := m2 }
      match alookup g s.cache with
      | some value => assignD dest value s
      | none =>
        match s.mtx.rLock with
        | .error msg => (.pan msg, s)
        | .ok m3 =>
          match m3.rUnlock with
          | .error msg => (.pan msg, { s with mtx := m3 })
          | .ok m4 =>
            let s := { s with mtx := m4 }
            if pmem g s.pending then (.err .circularDependency, s)
            else
              match s.mtx.wLock with
              | .error msg => (.pan msg, s)
              | .ok m5 =>
                match m5.wUnlock with
                | .error msg => (.pan msg, { s with mtx := m5 })
                | .ok m6 =>
                  let s := { s with
                             pending := g :: s.pending
                             calls := g :: s.calls
                             mtx := m6 }
                  match runProg get s (prog g) with
                  | (.ok value, s1) =>
                    match s1.mtx.wLock with
                    | .error msg => (.pan msg, s1)
                    | .ok m7 =>
                      match m7.wUnlock with
                      | .error msg => (.pan msg, { s1 with mtx := m7 })
                      | .ok m8 =>
                        let s2 := { s1 with
                                    cache := (g, value) :: s1.cache
                                    pending := prem g s1.pending
                                    mtx := m8 }
                        assignD dest value s2
                  | (.err e, s1) =>
                    match s1.mtx.wLock with
                    | .error msg => (.pan msg, s1)
                    | .ok m7 =>
                      match m7.wUnlock with
                      | .error msg => (.pan msg, { s1 with mtx := m7 })
                      | .ok m8 =>
                        (.err e, { s1 with pending := prem g s1.pending, mtx := m8 })
                  | (.pan msg, s1) => (.pan msg, s1)
                  | (.fuelOut, s1) => (.fuelOut, s1)

/-- `Repository.Get(dest, g)`: first the predefined-grabber lookup — if
`g` is a `NamedGrabber` with a non-empty name, the code takes `RLock`,
consults `predefinedGrabbers`, and then releases with `Unlock`, the
exclusive-mode release, which faults on a mutex that is not write-locked —
then the core resolution algorithm (`getCore`). The fuel only bounds the
nesting depth of producer-issued `Get` calls. -/
def interpGet (env : Env) : Nat → State → Dest → Nat → Out Unit × State
  | 0, s, _, _ => (.fuelOut, s)
  | fuel + 1, s, dest, g =>
    let nested := fun s' g' => interpGet env fuel s' .inner g'
    match env.gname g with
    | none => getCore nested env.prog s dest g
    | some n =>
      if n = "" then getCore nested env.prog s dest g
      else
        match s.mtx.rLock with
        | .error msg => (.pan msg, s)
        | .ok m1 =>
          let g1 := (alookup n env.predef).getD g
          match m1.wUnlock with
          | .error msg => (.pan msg, { s with mtx := m1 })
          | .ok m2 => getCore nested env.prog { s with mtx := m2 } dest g1

/-- The shape classification of a destination handle performed by `assign`
before it looks at the produced value: the specific sentinel error for each
invalid shape, `none` for the two accepted shapes (pointer to interface,
pointer to pointer). -/
def destShapeErr : Dest → Option GErr
  | .ext none => some .destInterfaceMustBePointer
  | .ext (some (dt, _)) =>
    match dt with
    | .ptr et =>
      if et.kind = .kiface ∨ et.kind = .kptr then none
      else some .destMustBeDoublePointer
    | _ => some .destMustBePointer
  | .inner => none

/-- Modelled from the spec: the mock facility (`Mock`, `ErrAlreadyMocked`)
is exercised by the test file (`TestMockDependency`) but its source file is
not under `src/`. Following spec §4.4, the MockOverlay state is a
write-once mapping from producer identity to an override value. -/
structure Overlay where
  mocks : List (Nat × IVal)

/-- Modelled from the spec: MockOverlay's `Get(dest, producer)` — "under
guarded read, if an override exists for `producer`, assign it to `dest`
and return — bypassing cache, pending set, and construction entirely.
Otherwise delegate to the wrapped Resolver." The overlay's own guard is
used in a balanced way and is left implicit. -/
def overlayGet (env : Env) (fuel : Nat) (ov : Overlay) (s : State)
    (dest : Dest) (g : Nat) : Out Unit × State :=
  match alookup g ov.mocks with
  | some v => assignD dest v s
  | none => interpGet env fuel s dest g

/-- Modelled from the spec: MockOverlay's `Mock(producer, value)` — "under
guarded exclusive access, fails with AlreadyMocked if an override already
exists for `producer`; otherwise records it permanently." -/
def overlayMock (ov : Overlay) (g : Nat) (v : IVal) : Out Unit × Overlay :=
  match alookup g ov.mocks with
  | some _ => (.err .alreadyMocked, ov)
  | none => (.ok (), ⟨(g, v) :: ov.mocks⟩)

/-- Invariant of one `Get` call: cache entries are never overwritten or
dropped; the heap is unchanged unless the call returns success; a call on
a producer-local destination never touches the caller-visible heap; a
producer that is already cached is never invoked again (its call count is
unchanged); and from an unlocked mutex the call either panics or returns
the mutex unlocked. -/
def GetInv (s : State) (dest : Dest) (o : Out Unit × State) : Prop :=
  (∀ h v, alookup h s.cache = some v → alookup h o.2.cache = some v) ∧
  (o.1 ≠ .ok () → o.2.heap = s.heap) ∧
  (dest = .inner → o.2.heap = s.heap) ∧
  (∀ h, alookup h s.cache ≠ none → ccount h o.2.calls = ccount h s.calls) ∧
  (s.mtx = Mtx.free → (∃ m, o.1 = .pan m) ∨ o.2.mtx = Mtx.free)

/-- Invariant of running one producer body: cache entries are preserved,
the caller-visible heap is untouched, already-cached producers are never
invoked, and the mutex discipline is kept. -/
def ProgInv (s : State) (o : Out IVal × State) : Prop :=
  (∀ h v, alookup h s.cache = some v → alookup h o.2.cache = some v) ∧
  o.2.heap = s.heap ∧
  (∀ h, alookup h s.cache ≠ none → ccount h o.2.calls = ccount h s.calls) ∧
  (s.mtx = Mtx.free → (∃ m, o.1 = .pan m) ∨ o.2.mtx = Mtx.free)

/-- `Evolves env s s'`: state `s'` is reachable from `s` by a sequence of
arbitrary later `Get` calls on the same repository, none of which died in
a panic. -/
inductive Evolves (env : Env) : State → State → Prop where
  | refl (s : State) : Evolves env s s
  | step (s s1 s2 : State) (fuel : Nat) (dest : Dest) (g : Nat) (r : Out Unit)
      (h0 : Evolves env s s1)
      (h1 : interpGet env fuel s1 dest g = (r, s2))
      (hr : ∀ m, r ≠ Out.pan m) : Evolves env s s2

/-- A well-shaped caller destination: a pointer to an interface slot at
heap address 100. -/
def destOK : Dest := .ext (some (.ptr .iface, 100))

/-- A producer that allocates a fresh `*dummy`-like pointer value
(`grabDummy` of the test file); unnamed. -/
def demoEnv : Env := ⟨fun _ => .ret (.ptr (.struct_ 0)), fun _ => none, []⟩

/-- A producer that returns `(nil, nil)`. -/
def envNil : Env := ⟨fun _ => .retNil, fun _ => none, []⟩

/-- A producer that returns a bare (non-pointer) struct value, like
`grabTest` of `TestSrcMustPointer`. -/
def envStruct : Env := ⟨fun _ => .ret (.struct_ 1), fun _ => none, []⟩

/-- A producer that fails with the caller's sentinel error number 7, like
`grabTest` of `TestInitializationFails`. -/
def envFail : Env := ⟨fun _ => .fail (.userErr 7), fun _ => none, []⟩

/-- Producer 0 resolves itself before returning: a direct self-cycle. -/
def envCycle : Env := ⟨fun _ => .seqGet 0 (.ret (.ptr .iface)), fun _ => none, []⟩

/-- Producer 0 resolves producer 1, whose construction resolves producer 0:
a transitive cycle. -/
def envCycle2 : Env :=
  ⟨fun g => if g = 0 then .seqGet 1 (.ret (.ptr .iface)) else .seqGet 0 (.ret (.ptr .iface)),
   fun _ => none, []⟩

/-- Producer 0 is a `NamedGrabber` with the non-empty name "db", registered
as a predefined grabber by `New`. -/
def envNamed : Env := ⟨fun _ => .ret (.ptr .iface), fun _ => some "db", [("db", 0)]⟩

/-- The repository state reached by one successful `Get` of the demo
producer into `destOK` on a fresh repository. -/
def demoAfterFirst : State :=
  ⟨[(0, some (.ptr (.struct_ 0), 0))], [], [(100, some (.ptr (.struct_ 0), 0))], 1, [0],
   Mtx.free⟩

theorem prem_eq_of_not_mem (k : Nat) (l : List Nat) (h : pmem k l = false) :
    prem k l = l := by
  induction l with
  | nil => rfl
  | cons x r ih =>
    simp only [pmem, Bool.or_eq_false_iff, beq_eq_false_iff_ne, ne_eq] at h
    simp [prem, h.1, ih h.2]

theorem ccount_cons_ne (k x : Nat) (l : List Nat) (hx : ¬ x = k) :
    ccount k (x :: l) = ccount k l := by
  simp [ccount, hx]

theorem state_eta_mtx (s : State) (h : s.mtx = Mtx.free) :
    { s with mtx := Mtx.free } = s := by
  cases s
  simp_all

theorem assignD_frame (dest : Dest) (v : IVal) (s : State) :
    (assignD dest v s).2.cache = s.cache ∧ (assignD dest v s).2.pending = s.pending ∧
    (assignD dest v s).2.alloc = s.alloc ∧ (assignD dest v s).2.calls = s.calls ∧
    (assignD dest v s).2.mtx = s.mtx := by
  unfold assignD
  repeat' split
  all_goals simp

theorem assignD_not_ok (dest : Dest) (v : IVal) (s : State)
    (h : (assignD dest v s).1 ≠ .ok ()) : (assignD dest v s).2 = s := by
  unfold assignD at *
  repeat' split at h
  all_goals simp_all

theorem assignD_inner (v : IVal) (s : State) : (assignD .inner v s).2 = s := by
  unfold assignD
  repeat' split
  all_goals simp_all

theorem assignD_ok_src (dest : Dest) (v : IVal) (s : State)
    (h : (assignD dest v s).1 = .ok ()) :
    ∃ st a, v = some (st, a) ∧ st.kind = .kptr := by
  unfold assignD at h
  repeat' split at h
  all_goals first
    | exact ⟨_, _, rfl, by assumption⟩
    | simp_all

theorem assignD_valid_ext (et : GoType) (a : Nat) (st : GoType) (va : Nat) (s : State)
    (h1 : et.kind = .kiface ∨ et.kind = .kptr) (h2 : st.kind = .kptr) :
    assignD (.ext (some (.ptr et, a))) (some (st, va)) s
      = (.ok (), { s with heap := (a, some (st, va)) :: s.heap }) := by
  simp [assignD, h1, h2]

theorem assignD_ok_ext_heap (dt : GoType) (a : Nat) (v : IVal) (s : State)
    (h : (assignD (.ext (some (dt, a))) v s).1 = .ok ()) :
    (assignD (.ext (some (dt, a))) v s).2.heap = (a, v) :: s.heap := by
  unfold assignD at *
  repeat' split at h
  all_goals simp_all

@[simp] theorem rLock_free : Mtx.free.rLock = .ok ⟨1, false⟩ := rfl

@[simp] theorem rUnlock_one : Mtx.rUnlock ⟨1, false⟩ = .ok Mtx.free := rfl

@[simp] theorem wLock_free : Mtx.free.wLock = .ok ⟨0, true⟩ := rfl

@[simp] theorem wUnlock_held : Mtx.wUnlock ⟨0, true⟩ = .ok Mtx.free := rfl

theorem rLock_ok_inv (m m' : Mtx) (h : m.rLock = .ok m') :
    m.writer = false ∧ m' = ⟨m.readers + 1, false⟩ := by
  unfold Mtx.rLock at h
  split at h
  · exact absurd h (by simp)
  · rename_i hw
    simp only [Bool.not_eq_true] at hw
    cases h
    exact ⟨hw, by rw [hw]⟩

theorem wUnlock_ok_inv (m m' : Mtx) (h : m.wUnlock = .ok m') :
    m.writer = true ∧ m' = ⟨m.readers, false⟩ := by
  unfold Mtx.wUnlock at h
  split at h
  · rename_i hw
    cases h
    exact ⟨hw, rfl⟩
  · exact absurd h (by simp)

theorem runProg_inv (get : State → Nat → Out Unit × State)
    (hget : ∀ s g, GetInv s .inner (get s g)) (p : Prog) :
    ∀ s, ProgInv s (runProg get s p) := by
  induction p with
  | ret ty => exact fun s => ⟨fun _ _ hv => hv, rfl, fun _ _ => rfl, fun hm => .inr hm⟩
  | retNil => exact fun s => ⟨fun _ _ hv => hv, rfl, fun _ _ => rfl, fun hm => .inr hm⟩
  | fail e => exact fun s => ⟨fun _ _ hv => hv, rfl, fun _ _ => rfl, fun hm => .inr hm⟩
  | seqGet g k ih =>
    intro s
    rcases hg : get s g with ⟨r, s1⟩
    have H := hget s g
    rw [hg] at H
    obtain ⟨hc, hno, hin, hcn, hmx⟩ := H
    simp only [runProg, hg]
    cases r with
    | ok u =>
      obtain ⟨ihc, ihh, ihcn, ihm⟩ := ih s1
      refine ⟨fun h v hv => ihc h v (hc h v hv), ihh.trans (hin rfl), ?_, fun hm => ?_⟩
      · intro h hne
        have h1c : alookup h s1.cache ≠ none := by
          cases hx : alookup h s.cache with
          | none => exact absurd hx hne
          | some v => rw [hc h v hx]; simp
        exact (ihcn h h1c).trans (hcn h hne)
      · rcases hmx hm with ⟨m, hpan⟩ | hfree
        · exact absurd hpan (by simp)
        · exact ihm hfree
    | err e =>
      refine ⟨hc, hin rfl, hcn, fun hm => ?_⟩
      rcases hmx hm with ⟨m, hpan⟩ | hfree
      · exact absurd hpan (by simp)
      · exact .inr hfree
    | pan msg => exact ⟨hc, hin rfl, hcn, fun _ => .inl ⟨msg, rfl⟩⟩
    | fuelOut =>
      refine ⟨hc, hin rfl, hcn, fun hm => ?_⟩
      rcases hmx hm with ⟨m, hpan⟩ | hfree
      · exact absurd hpan (by simp)
      · exact .inr hfree

theorem rr_free (m0 m1 m2 : Mtx) (hm : m0 = Mtx.free)
    (h1 : m0.rLock = .ok m1) (h2 : m1.rUnlock = .ok m2) : m2 = Mtx.free := by
  subst hm
  rw [rLock_free] at h1
  injection h1 with h1
  subst h1
  rw [rUnlock_one] at h2
  injection h2 with h2
  exact h2.symm

theorem ww_free (m0 m1 m2 : Mtx) (hm : m0 = Mtx.free)
    (h1 : m0.wLock = .ok m1) (h2 : m1.wUnlock = .ok m2) : m2 = Mtx.free := by
  subst hm
  rw [wLock_free] at h1
  injection h1 with h1
  subst h1
  rw [wUnlock_held] at h2
  injection h2 with h2
  exact h2.symm

theorem getInv_pan_self (s : State) (dest : Dest) (msg : String) :
    GetInv s dest (.pan msg, s) :=
  ⟨fun _ _ hv => hv, fun _ => rfl, fun _ => rfl, fun _ _ => rfl, fun _ => .inl ⟨msg, rfl⟩⟩

theorem getInv_pan_mtx (s : State) (dest : Dest) (msg : String) (m : Mtx) :
    GetInv s dest (.pan msg, { s with mtx := m }) :=
  ⟨fun _ _ hv => hv, fun _ => rfl, fun _ => rfl, fun _ _ => rfl, fun _ => .inl ⟨msg, rfl⟩⟩

theorem getInv_assign_cached (s : State) (dest : Dest) (value : IVal) (m : Mtx)
    (hmf : s.mtx = Mtx.free → m = Mtx.free) :
    GetInv s dest (assignD dest value { s with mtx := m }) := by
  obtain ⟨f1, _, _, f4, f5⟩ := assignD_frame dest value { s with mtx := m }
  refine ⟨?_, ?_, ?_, ?_, ?_⟩
  · intro h v hv
    rw [f1]
    exact hv
  · intro hno
    rw [assignD_not_ok dest value _ hno]
  · rintro rfl
    rw [assignD_inner]
  · intro h hne
    rw [f4]
  · intro hm
    right
    rw [f5]
    exact hmf hm

theorem getInv_assign_fresh (s s1 : State) (dest : Dest) (g : Nat) (value : IVal) (m : Mtx)
    (hmono : ∀ h v, alookup h s.cache = some v → alookup h s1.cache = some v)
    (hmiss : alookup g s.cache = none)
    (hheap : s1.heap = s.heap)
    (hcount : ∀ h, alookup h s.cache ≠ none → ccount h s1.calls = ccount h s.calls)
    (hmf : s.mtx = Mtx.free → m = Mtx.free) :
    GetInv s dest (assignD dest value
      { s1 with cache := (g, value) :: s1.cache, pending := prem g s1.pending, mtx := m }) := by
  obtain ⟨f1, _, _, f4, f5⟩ := assignD_frame dest value
    { s1 with cache := (g, value) :: s1.cache, pending := prem g s1.pending, mtx := m }
  refine ⟨?_, ?_, ?_, ?_, ?_⟩
  · intro h v hv
    rw [f1]
    show alookup h ((g, value) :: s1.cache) = some v
    by_cases hgh : g = h
    · subst hgh
      rw [hv] at hmiss
      exact absurd hmiss (by simp)
    · simp only [alookup, if_neg hgh]
      exact hmono h v hv
  · intro hno
    rw [assignD_not_ok _ _ _ hno]
    exact hheap
  · rintro rfl
    rw [assignD_inner]
    exact hheap
  · intro h hne
    rw [f4]
    exact hcount h hne
  · intro hm
    right
    rw [f5]
    exact hmf hm

theorem progInv_facts (get : State → Nat → Out Unit × State)
    (hget : ∀ s g, GetInv s .inner (get s g)) (p : Prog) (sM : State)
    (o : Out IVal × State) (heq : runProg get sM p = o) : ProgInv sM o :=
  heq ▸ runProg_inv get hget p sM

theorem getCore_inv (get : State → Nat → Out Unit × State) (prog : Nat → Prog)
    (hget : ∀ s g, GetInv s .inner (get s g)) (s : State) (dest : Dest) (g : Nat) :
    GetInv s dest (getCore get prog s dest g) := by
  unfold getCore
  dsimp only
  split
  · exact getInv_pan_self s dest _
  rename_i m1 h1
  split
  · exact getInv_pan_mtx s dest _ m1
  rename_i m2 h2
  split
  · -- cache hit: assign the cached value
    rename_i value h3
    exact getInv_assign_cached s dest value m2 fun hm => rr_free s.mtx m1 m2 hm h1 h2
  · -- cache miss
    rename_i h3
    split
    · exact getInv_pan_mtx s dest _ m2
    rename_i m3 h4
    split
    · exact getInv_pan_mtx s dest _ m3
    rename_i m4 h5
    split
    · -- pending hit: circular dependency
      refine ⟨fun _ _ hv => hv, fun _ => rfl, fun _ => rfl, fun _ _ => rfl, fun hm => .inr ?_⟩
      show m4 = Mtx.free
      exact rr_free m2 m3 m4 (rr_free s.mtx m1 m2 hm h1 h2) h4 h5
    · rename_i h6
      split
      · exact getInv_pan_mtx s dest _ m4
      rename_i m5 h7
      split
      · exact getInv_pan_mtx s dest _ m5
      rename_i m6 h8
      split
      · -- construction succeeded
        rename_i value s1 heq
        have HP := progInv_facts get hget (prog g) _ _ heq
        have hcnt : ∀ h, alookup h s.cache ≠ none →
            ccount h s1.calls = ccount h s.calls := by
          intro h hne
          have hneg : ¬ g = h := by
            intro hg
            rw [← hg] at hne
            exact hne h3
          exact (HP.2.2.1 h hne).trans (ccount_cons_ne h g s.calls hneg)
        split
        · exact ⟨fun h v hv => HP.1 h v hv, fun _ => HP.2.1, fun _ => HP.2.1,
            hcnt, fun _ => .inl ⟨_, rfl⟩⟩
        rename_i m7 h9
        split
        · exact ⟨fun h v hv => HP.1 h v hv, fun _ => HP.2.1, fun _ => HP.2.1,
            hcnt, fun _ => .inl ⟨_, rfl⟩⟩
        rename_i m8 h10
        refine getInv_assign_fresh s s1 dest g value m8 (fun h v hv => HP.1 h v hv)
          h3 HP.2.1 hcnt ?_
        intro hm
        have hm6 : m6 = Mtx.free :=
          ww_free m4 m5 m6 (rr_free m2 m3 m4 (rr_free s.mtx m1 m2 hm h1 h2) h4 h5) h7 h8
        have hs1 : s1.mtx = Mtx.free := by
          rcases HP.2.2.2 hm6 with ⟨m, hpan⟩ | hf
          · exact absurd hpan (by simp)
          · exact hf
        exact ww_free s1.mtx m7 m8 hs1 h9 h10
      · -- construction failed: propagate the error unchanged
        rename_i e s1 heq
        have HP := progInv_facts get hget (prog g) _ _ heq
        have hcnt : ∀ h, alookup h s.cache ≠ none →
            ccount h s1.calls = ccount h s.calls := by
          intro h hne
          have hneg : ¬ g = h := by
            intro hg
            rw [← hg] at hne
            exact hne h3
          exact (HP.2.2.1 h hne).trans (ccount_cons_ne h g s.calls hneg)
        split
        · exact ⟨fun h v hv => HP.1 h v hv, fun _ => HP.2.1, fun _ => HP.2.1,
            hcnt, fun _ => .inl ⟨_, rfl⟩⟩
        rename_i m7 h9
        split
        · exact ⟨fun h v hv => HP.1 h v hv, fun _ => HP.2.1, fun _ => HP.2.1,
            hcnt, fun _ => .inl ⟨_, rfl⟩⟩
        rename_i m8 h10
        refine ⟨fun h v hv => HP.1 h v hv, fun _ => HP.2.1, fun _ => HP.2.1,
          hcnt, fun hm => .inr ?_⟩
        show m8 = Mtx.free
        have hm6 : m6 = Mtx.free :=
          ww_free m4 m5 m6 (rr_free m2 m3 m4 (rr_free s.mtx m1 m2 hm h1 h2) h4 h5) h7 h8
        have hs1 : s1.mtx = Mtx.free := by
          rcases HP.2.2.2 hm6 with ⟨m, hpan⟩ | hf
          · exact absurd hpan (by simp)
          · exact hf
        exact ww_free s1.mtx m7 m8 hs1 h9 h10
      · -- construction panicked
        rename_i msg s1 heq
        have HP := progInv_facts get hget (prog g) _ _ heq
        have hcnt : ∀ h, alookup h s.cache ≠ none →
            ccount h s1.calls = ccount h s.calls := by
          intro h hne
          have hneg : ¬ g = h := by
            intro hg
            rw [← hg] at hne
            exact hne h3
          exact (HP.2.2.1 h hne).trans (ccount_cons_ne h g s.calls hneg)
        exact ⟨fun h v hv => HP.1 h v hv, fun _ => HP.2.1, fun _ => HP.2.1,
          hcnt, fun _ => .inl ⟨_, rfl⟩⟩
      · -- model ran out of fuel
        rename_i s1 heq
        have HP := progInv_facts get hget (prog g) _ _ heq
        have hcnt : ∀ h, alookup h s.cache ≠ none →
            ccount h s1.calls = ccount h s.calls := by
          intro h hne
          have hneg : ¬ g = h := by
            intro hg
            rw [← hg] at hne
            exact hne h3
          exact (HP.2.2.1 h hne).trans (ccount_cons_ne h g s.calls hneg)
        refine ⟨fun h v hv => HP.1 h v hv, fun _ => HP.2.1, fun _ => HP.2.1,
          hcnt, fun hm => ?_⟩
        have hm6 : m6 = Mtx.free :=
          ww_free m4 m5 m6 (rr_free m2 m3 m4 (rr_free s.mtx m1 m2 hm h1 h2) h4 h5) h7 h8
        rcases HP.2.2.2 hm6 with ⟨m, hpan⟩ | hf
        · exact absurd hpan (by simp)
        · exact .inr hf

theorem interpGet_inv (env : Env) :
    ∀ (fuel : Nat) (s : State) (dest : Dest) (g : Nat),
      GetInv s dest (interpGet env fuel s dest g) := by
  intro fuel
  induction fuel with
  | zero =>
    exact fun s dest g =>
      ⟨fun _ _ hv => hv, fun _ => rfl, fun _ => rfl, fun _ _ => rfl, fun hm => .inr hm⟩
  | succ fuel ih =>
    intro s dest g
    have hnested : ∀ s' g', GetInv s' .inner (interpGet env fuel s' .inner g') :=
      fun s' g' => ih s' .inner g'
    unfold interpGet
    dsimp only
    split
    · exact getCore_inv _ env.prog hnested s dest g
    · split
      · exact getCore_inv _ env.prog hnested s dest g
      · split
        · exact getInv_pan_self s dest _
        rename_i m1 h1
        split
        · exact getInv_pan_mtx s dest _ m1
        rename_i m2 h2
        -- dead branch: `Unlock` after `RLock` always faults
        obtain ⟨-, hm1⟩ := rLock_ok_inv s.mtx m1 h1
        obtain ⟨hw2, -⟩ := wUnlock_ok_inv m1 m2 h2
        rw [hm1] at hw2
        exact absurd hw2 (by simp)

theorem getCore_ok_inversion (get : State → Nat → Out Unit × State) (prog : Nat → Prog)
    (s s1 : State) (dest : Dest) (g : Nat)
    (h : getCore get prog s dest g = (.ok (), s1)) :
    ∃ st va, alookup g s1.cache = some (some (st, va)) ∧ st.kind = .kptr ∧
      ∀ dt ad, dest = .ext (some (dt, ad)) →
        alookup ad s1.heap = some (some (st, va)) := by
  unfold getCore at h
  dsimp only at h
  split at h
  · exact absurd h (by simp)
  rename_i m1 h1
  split at h
  · exact absurd h (by simp)
  rename_i m2 h2
  split at h
  · -- cache hit
    rename_i value h3
    have hfst : (assignD dest value { s with mtx := m2 }).1 = .ok () := by rw [h]
    have hsnd : (assignD dest value { s with mtx := m2 }).2 = s1 := by rw [h]
    obtain ⟨st, va, hval, hkind⟩ := assignD_ok_src _ _ _ hfst
    subst hval
    refine ⟨st, va, ?_, hkind, ?_⟩
    · have hc : s1.cache = s.cache := by
        rw [← hsnd]
        exact (assignD_frame _ _ _).1
      rw [hc]
      exact h3
    · rintro dt ad rfl
      have hh := assignD_ok_ext_heap dt ad _ { s with mtx := m2 } hfst
      rw [hsnd] at hh
      rw [hh]
      simp [alookup]
  · -- cache miss: constructed value freshly cached
    rename_i h3
    split at h
    · exact absurd h (by simp)
    rename_i m3 h4
    split at h
    · exact absurd h (by simp)
    rename_i m4 h5
    split at h
    · exact absurd h (by simp)
    rename_i h6
    split at h
    · exact absurd h (by simp)
    rename_i m5 h7
    split at h
    · exact absurd h (by simp)
    rename_i m6 h8
    split at h
    · rename_i value s1' heq
      split at h
      · exact absurd h (by simp)
      rename_i m7 h9
      split at h
      · exact absurd h (by simp)
      rename_i m8 h10
      have hfst : (assignD dest value
          { s1' with cache := (g, value) :: s1'.cache,
                     pending := prem g s1'.pending, mtx := m8 }).1 = .ok () := by rw [h]
      have hsnd : (assignD dest value
          { s1' with cache := (g, value) :: s1'.cache,
                     pending := prem g s1'.pending, mtx := m8 }).2 = s1 := by rw [h]
      obtain ⟨st, va, hval, hkind⟩ := assignD_ok_src _ _ _ hfst
      subst hval
      refine ⟨st, va, ?_, hkind, ?_⟩
      · have hc : s1.cache = (g, some (st, va)) :: s1'.cache := by
          rw [← hsnd]
          exact (assignD_frame _ _ _).1
        rw [hc]
        simp [alookup]
      · rintro dt ad rfl
        have hh := assignD_ok_ext_heap dt ad _ _ hfst
        rw [hsnd] at hh
        rw [hh]
        simp [alookup]
    · -- construction failed: result is an error, not ok
      split at h
      · exact absurd h (by simp)
      split at h
      · exact absurd h (by simp)
      · exact absurd h (by simp)
    · exact absurd h (by simp)
    · exact absurd h (by simp)

theorem get_ok_inversion (env : Env) (fuel : Nat) (s s1 : State) (dest : Dest) (g : Nat)
    (h : interpGet env (fuel + 1) s dest g = (.ok (), s1)) :
    (env.gname g = none ∨ env.gname g = some "") ∧
    ∃ st va, alookup g s1.cache = some (some (st, va)) ∧ st.kind = .kptr ∧
      ∀ dt ad, dest = .ext (some (dt, ad)) →
        alookup ad s1.heap = some (some (st, va)) := by
  unfold interpGet at h
  dsimp only at h
  split at h
  · rename_i hn
    exact ⟨.inl hn, getCore_ok_inversion _ _ _ _ _ _ h⟩
  split at h
  · rename_i hn heq
    rw [heq] at hn
    exact ⟨.inr hn, getCore_ok_inversion _ _ _ _ _ _ h⟩
  · split at h
    · exact absurd h (by simp)
    rename_i m1 h1
    split at h
    · exact absurd h (by simp)
    rename_i m2 h2
    obtain ⟨-, hm1⟩ := rLock_ok_inv s.mtx m1 h1
    obtain ⟨hw2, -⟩ := wUnlock_ok_inv m1 m2 h2
    rw [hm1] at hw2
    exact absurd hw2 (by simp)

theorem get_cached_run (env : Env) (fuel : Nat) (s : State) (dest : Dest) (g : Nat) (v : IVal)
    (hname : env.gname g = none ∨ env.gname g = some "")
    (hmtx : s.mtx = Mtx.free)
    (hc : alookup g s.cache = some v) :
    interpGet env (fuel + 1) s dest g = assignD dest v s := by
  unfold interpGet
  dsimp only
  have hcore : getCore (fun s' g' => interpGet env fuel s' .inner g') env.prog s dest g
      = assignD dest v s := by
    unfold getCore
    dsimp only
    simp only [hmtx, rLock_free, rUnlock_one, hc]
    rw [state_eta_mtx s hmtx]
  rcases hname with hn | hn
  · rw [hn]
    exact hcore
  · rw [hn]
    simpa using hcore

theorem evolves_cache (env : Env) (s s' : State) (hev : Evolves env s s') (g : Nat) (v : IVal)
    (hc : alookup g s.cache = some v) : alookup g s'.cache = some v := by
  induction hev with
  | refl => exact hc
  | step s1 s2 fuel dest gg r h0 h1 hr ih =>
    have H := interpGet_inv env fuel s1 dest gg
    rw [h1] at H
    exact H.1 g v ih

theorem evolves_mtx (env : Env) (s s' : State) (hev : Evolves env s s')
    (hm : s.mtx = Mtx.free) : s'.mtx = Mtx.free := by
  induction hev with
  | refl => exact hm
  | step s1 s2 fuel dest gg r h0 h1 hr ih =>
    have H := interpGet_inv env fuel s1 dest gg
    rw [h1] at H
    rcases H.2.2.2.2 ih with ⟨m, hpan⟩ | hf
    · exact absurd hpan (hr m)
    · exact hf

theorem evolves_calls (env : Env) (s s' : State) (hev : Evolves env s s') (g : Nat)
    (hc : alookup g s.cache ≠ none) : ccount g s'.calls = ccount g s.calls := by
  induction hev with
  | refl => rfl
  | step s1 s2 fuel dest gg r h0 h1 hr ih =>
    have H := interpGet_inv env fuel s1 dest gg
    rw [h1] at H
    have hc1 : alookup g s1.cache ≠ none := by
      cases hx : alookup g s.cache with
      | none => exact absurd hx hc
      | some v =>
        rw [evolves_cache env s s1 h0 g v hx]
        simp
    exact (H.2.2.2.1 g hc1).trans ih

theorem get_unnamed (env : Env) (fuel : Nat) (s : State) (dest : Dest) (g : Nat)
    (hname : env.gname g = none ∨ env.gname g = some "") :
    interpGet env (fuel + 1) s dest g
      = getCore (fun s' g' => interpGet env fuel s' .inner g') env.prog s dest g := by
  conv_lhs => unfold interpGet
  dsimp only
  rcases hname with hn | hn
  · rw [hn]
  · rw [hn]
    simp

theorem get_fail_run (env : Env) (fuel : Nat) (s : State) (dest : Dest) (g : Nat) (e : GErr)
    (hname : env.gname g = none ∨ env.gname g = some "")
    (hprog : env.prog g = .fail e)
    (hmtx : s.mtx = Mtx.free)
    (hcache : alookup g s.cache = none)
    (hpend : pmem g s.pending = false) :
    interpGet env (fuel + 1) s dest g = (.err e, { s with calls := g :: s.calls }) := by
  rw [get_unnamed env fuel s dest g hname]
  unfold getCore
  simp [hmtx, hcache, hpend, hprog, runProg, prem_eq_of_not_mem g s.pending hpend, prem,
    state_eta_mtx s hmtx]

theorem get_ret_run (env : Env) (fuel : Nat) (s : State) (dest : Dest) (g : Nat) (ty : GoType)
    (hname : env.gname g = none ∨ env.gname g = some "")
    (hprog : env.prog g = .ret ty)
    (hmtx : s.mtx = Mtx.free)
    (hcache : alookup g s.cache = none)
    (hpend : pmem g s.pending = false) :
    interpGet env (fuel + 1) s dest g
      = assignD dest (some (ty, s.alloc))
          { s with cache := (g, some (ty, s.alloc)) :: s.cache,
                   alloc := s.alloc + 1, calls := g :: s.calls } := by
  rw [get_unnamed env fuel s dest g hname]
  obtain ⟨cache, pending, heap, alloc, calls, mtx⟩ := s
  dsimp only at hmtx hcache hpend ⊢
  subst hmtx
  unfold getCore
  simp [hcache, hpend, hprog, runProg, prem_eq_of_not_mem g pending hpend, prem]

theorem assignD_shape_err (dest : Dest) (e : GErr) (v : IVal) (s : State)
    (h : destShapeErr dest = some e) : assignD dest v s = (.err e, s) := by
  rcases dest with o | _
  · rcases o with _ | ⟨dt, a⟩
    · simp only [destShapeErr, Option.some.injEq] at h
      subst h
      rfl
    · rcases dt with et | _ | nm | nm
      · by_cases hk : et.kind = .kiface ∨ et.kind = .kptr
        · simp [destShapeErr, hk] at h
        · simp only [destShapeErr, hk, if_false, Option.some.injEq] at h
          subst h
          simp [assignD, hk]
      · simp only [destShapeErr, Option.some.injEq] at h
        subst h
        rfl
      · simp only [destShapeErr, Option.some.injEq] at h
        subst h
        rfl
      · simp only [destShapeErr, Option.some.injEq] at h
        subst h
        rfl
  · simp [destShapeErr] at h

/-- C1 counterexample: the claim says that for an invalidly shaped
destination "the producer's construction operation is never invoked"; but
calling `Get` with a nil-interface destination on a fresh repository
returns the specific shape error while the producer's `Grab` has been
invoked (the call log is `[0]`, not `[]`): validation happens only inside
`assign`, after construction. -/
theorem C1_counterexample :
    (interpGet demoEnv 2 State.init (.ext none) 0).1 = .err .destInterfaceMustBePointer ∧
    (interpGet demoEnv 2 State.init (.ext none) 0).2.calls = [0] := by
  decide

/-- C1 (amended): for every `Get` on an invalidly shaped destination with
an uncached, unmarked producer whose construction succeeds, `Get` returns
the specific shape error for that shape, but only after the producer's
construction has been invoked (the call log grows by `g`) and its result
has been memoized — the shape is not rejected before construction runs. -/
theorem C1_shape_error_after_construction (env : Env) (fuel : Nat) (s : State)
    (dest : Dest) (g : Nat) (ty : GoType) (e : GErr)
    (hname : env.gname g = none ∨ env.gname g = some "")
    (hprog : env.prog g = .ret ty)
    (hdest : destShapeErr dest = some e)
    (hmtx : s.mtx = Mtx.free)
    (hcache : alookup g s.cache = none)
    (hpend : pmem g s.pending = false) :
    interpGet env (fuel + 1) s dest g
      = (.err e, { s with
                   cache := (g, some (ty, s.alloc)) :: s.cache
                   alloc := s.alloc + 1
                   calls := g :: s.calls }) := by
  rw [get_ret_run env fuel s dest g ty hname hprog hmtx hcache hpend]
  exact assignD_shape_err dest e _ _ hdest

/-- Witness for the amended C1 at a concrete input: a nil-interface
destination on a fresh repository with the demo producer. -/
theorem C1_shape_error_after_construction_witness :
    interpGet demoEnv 1 State.init (.ext none) 0
      = (.err .destInterfaceMustBePointer,
         { State.init with
           cache := [(0, some (.ptr (.struct_ 0), 0))]
           alloc := 1
           calls := [0] }) :=
  C1_shape_error_after_construction demoEnv 0 State.init (.ext none) 0
    (.ptr (.struct_ 0)) .destInterfaceMustBePointer (.inl rfl) rfl rfl rfl rfl rfl

/-- C3: a producer that, directly or transitively, requests itself again
before its first construction has finished fails with
`ErrCircularDependency`: (i) any `Get` of an uncached producer that is
already marked pending returns the circular-dependency error with the
state untouched — this is the inner `Get` issued by the producer's own
construction chain; (ii) the direct self-cycle environment and (iii) the
two-producer transitive cycle both terminate with exactly that error for
every sufficient fuel bound, so resolution neither recurses unboundedly
nor deadlocks (the outcome is an error, not a blocked or fuel-exhausted
one). -/
theorem C3_circular_dependency_detected :
    (∀ (env : Env) (fuel : Nat) (s : State) (dest : Dest) (g : Nat),
      (env.gname g = none ∨ env.gname g = some "") →
      s.mtx = Mtx.free →
      alookup g s.cache = none →
      pmem g s.pending = true →
      interpGet env (fuel + 1) s dest g = (.err .circularDependency, s)) ∧
    (∀ fuel : Nat, interpGet envCycle (fuel + 2) State.init destOK 0
      = (.err .circularDependency, { State.init with calls := [0] })) ∧
    (∀ fuel : Nat, interpGet envCycle2 (fuel + 3) State.init destOK 0
      = (.err .circularDependency, { State.init with calls := [1, 0] })) := by
  refine ⟨?_, ?_, ?_⟩
  · intro env fuel s dest g hname hmtx hcache hpend
    rw [get_unnamed env fuel s dest g hname]
    unfold getCore
    simp [hmtx, hcache, hpend, state_eta_mtx s hmtx]
  · intro fuel
    simp [interpGet, getCore, runProg, envCycle, State.init, assignD, alookup, pmem, prem,
      Mtx.free, Mtx.rLock, Mtx.rUnlock, Mtx.wLock, Mtx.wUnlock]
  · intro fuel
    simp [interpGet, getCore, runProg, envCycle2, State.init, assignD, alookup, pmem, prem,
      Mtx.free, Mtx.rLock, Mtx.rUnlock, Mtx.wLock, Mtx.wUnlock]

/-- Witness for C3 at a concrete input: with producer 0 already pending,
`Get` on producer 0 returns the circular-dependency error. -/
theorem C3_circular_dependency_detected_witness :
    interpGet envCycle 3 ⟨[], [0], [], 0, [], Mtx.free⟩ destOK 0
      = (.err .circularDependency, ⟨[], [0], [], 0, [], Mtx.free⟩) :=
  C3_circular_dependency_detected.1 envCycle 2 ⟨[], [0], [], 0, [], Mtx.free⟩ destOK 0
    (.inl rfl) rfl rfl rfl

/-- C4: a producer whose construction returns an error makes `Get` return
that exact error value; the state shows nothing was memoized (cache
unchanged), the pending mark was cleared (pending unchanged overall), and
only the call log grew; a second `Get` for the same producer re-invokes
the construction (the call log grows again) and fails the same way. -/
theorem C4_producer_error_propagated_and_retried (env : Env) (fuel fuel2 : Nat)
    (s : State) (dest : Dest) (g : Nat) (e : GErr)
    (hname : env.gname g = none ∨ env.gname g = some "")
    (hprog : env.prog g = .fail e)
    (hmtx : s.mtx = Mtx.free)
    (hcache : alookup g s.cache = none)
    (hpend : pmem g s.pending = false) :
    interpGet env (fuel + 1) s dest g = (.err e, { s with calls := g :: s.calls }) ∧
    interpGet env (fuel2 + 1) { s with calls := g :: s.calls } dest g
      = (.err e, { s with calls := g :: g :: s.calls }) := by
  refine ⟨get_fail_run env fuel s dest g e hname hprog hmtx hcache hpend, ?_⟩
  exact get_fail_run env fuel2 { s with calls := g :: s.calls } dest g e
    hname hprog hmtx hcache hpend

/-- Witness for C4 at a concrete input: the failing producer on a fresh
repository, called twice. -/
theorem C4_producer_error_propagated_and_retried_witness :
    interpGet envFail 1 State.init destOK 0
      = (.err (.userErr 7), { State.init with calls := [0] }) ∧
    interpGet envFail 1 { State.init with calls := [0] } destOK 0
      = (.err (.userErr 7), { State.init with calls := [0, 0] }) :=
  C4_producer_error_propagated_and_retried envFail 0 0 State.init destOK 0 (.userErr 7)
    (.inl rfl) rfl rfl rfl rfl

/-- C9: a producer whose construction succeeds but yields a non-pointer
value makes `Get` return `ErrSrcMustBePointer`, yet the value has been
recorded in the cache before `assign` ran; a second `Get` hits the cache,
returns `ErrSrcMustBePointer` again and leaves the state identical — in
particular the call log does not grow, so the producer is never retried. -/
theorem C9_nonpointer_result_memoized_never_retried (env : Env) (fuel fuel2 : Nat)
    (s : State) (g : Nat) (ty et : GoType) (a : Nat)
    (hname : env.gname g = none ∨ env.gname g = some "")
    (hprog : env.prog g = .ret ty)
    (hty : ¬ ty.kind = .kptr)
    (het : et.kind = .kiface ∨ et.kind = .kptr)
    (hmtx : s.mtx = Mtx.free)
    (hcache : alookup g s.cache = none)
    (hpend : pmem g s.pending = false) :
    interpGet env (fuel + 1) s (.ext (some (.ptr et, a))) g
      = (.err .srcMustBePointer,
         { s with
                  cache := (g, some (ty, s.alloc)) :: s.cache
                  alloc := s.alloc + 1
                  calls := g :: s.calls }) ∧
    alookup g ({ s with
                 cache := (g, some (ty, s.alloc)) :: s.cache
                 alloc := s.alloc + 1
                 calls := g :: s.calls } : State).cache
      = some (some (ty, s.alloc)) ∧
    interpGet env (fuel2 + 1)
        { s with
                 cache := (g, some (ty, s.alloc)) :: s.cache
                 alloc := s.alloc + 1
                 calls := g :: s.calls }
        (.ext (some (.ptr et, a))) g
      = (.err .srcMustBePointer,
         { s with
                  cache := (g, some (ty, s.alloc)) :: s.cache
                  alloc := s.alloc + 1
                  calls := g :: s.calls }) := by
  have hfirst := get_ret_run env fuel s (.ext (some (.ptr et, a))) g ty
    hname hprog hmtx hcache hpend
  have hassign : assignD (.ext (some (.ptr et, a))) (some (ty, s.alloc))
      { s with
               cache := (g, some (ty, s.alloc)) :: s.cache
               alloc := s.alloc + 1
               calls := g :: s.calls }
      = (.err .srcMustBePointer,
         { s with
                  cache := (g, some (ty, s.alloc)) :: s.cache
                  alloc := s.alloc + 1
                  calls := g :: s.calls }) := by
    simp [assignD, het, hty]
  have hhit : alookup g ({ s with
      cache := (g, some (ty, s.alloc)) :: s.cache
      alloc := s.alloc + 1
      calls := g :: s.calls } : State).cache
      = some (some (ty, s.alloc)) := by
    simp [alookup]
  refine ⟨hfirst.trans hassign, hhit, ?_⟩
  have hagain := get_cached_run env fuel2
    { s with
             cache := (g, some (ty, s.alloc)) :: s.cache
             alloc := s.alloc + 1
             calls := g :: s.calls }
    (.ext (some (.ptr et, a))) g (some (ty, s.alloc)) hname hmtx hhit
  rw [hagain]
  simp [assignD, het, hty]

/-- Witness for C9 at a concrete input: the bare-struct producer on a
fresh repository, resolved twice into a pointer-to-interface slot. -/
theorem C9_nonpointer_result_memoized_never_retried_witness :
    interpGet envStruct 1 State.init (.ext (some (.ptr .iface, 100))) 0
      = (.err .srcMustBePointer,
         { State.init with
                           cache := [(0, some (.struct_ 1, 0))]
                           alloc := 1
                           calls := [0] }) ∧
    alookup 0 ({ State.init with
                 cache := [(0, some (.struct_ 1, 0))]
                 alloc := 1
                 calls := [0] } : State).cache
      = some (some (.struct_ 1, 0)) ∧
    interpGet envStruct 1
        { State.init with
                          cache := [(0, some (.struct_ 1, 0))]
                          alloc := 1
                          calls := [0] }
        (.ext (some (.ptr .iface, 100))) 0
      = (.err .srcMustBePointer,
         { State.init with
                           cache := [(0, some (.struct_ 1, 0))]
                           alloc := 1
                           calls := [0] }) :=
  C9_nonpointer_result_memoized_never_retried envStruct 0 0 State.init 0
    (.struct_ 1) .iface 100 (.inl rfl) rfl (by decide) (.inl rfl) rfl rfl rfl

/-- C2: once a `Get` for producer `g` has succeeded, the produced value is
cached as a pointer-shaped instance carrying an identity token; the first
destination (when caller-visible) references exactly that instance, and
after any sequence of later non-panicking `Get` calls on the same
repository, a further `Get` for `g` into any validly shaped destination
succeeds without invoking any construction — the state changes only by
the new destination slot now referencing the very same stored instance
(same identity token, not merely an equal value); moreover `g`'s call
count is unchanged across the whole later history, so `g`'s construction
succeeds at most once over the repository's lifetime. -/
theorem C2_memoized_singleton_identity (env : Env) (fuel fuel2 : Nat)
    (s s1 s2 : State) (dest1 : Dest) (g : Nat) (et2 : GoType) (a2 : Nat)
    (hmtx : s.mtx = Mtx.free)
    (h1 : interpGet env fuel s dest1 g = (.ok (), s1))
    (hev : Evolves env s1 s2)
    (het2 : et2.kind = .kiface ∨ et2.kind = .kptr) :
    ccount g s2.calls = ccount g s1.calls ∧
    ∃ st va, alookup g s1.cache = some (some (st, va)) ∧ st.kind = .kptr ∧
      (∀ dt1 a1, dest1 = .ext (some (dt1, a1)) →
        alookup a1 s1.heap = some (some (st, va))) ∧
      interpGet env (fuel2 + 1) s2 (.ext (some (.ptr et2, a2))) g
        = (.ok (), { s2 with heap := (a2, some (st, va)) :: s2.heap }) := by
  cases fuel with
  | zero => exact absurd h1 (by simp [interpGet])
  | succ f =>
    obtain ⟨hname, st, va, hc1, hkind, hheap1⟩ := get_ok_inversion env f s s1 dest1 g h1
    have H := interpGet_inv env (f + 1) s dest1 g
    rw [h1] at H
    have hm1 : s1.mtx = Mtx.free := by
      rcases H.2.2.2.2 hmtx with ⟨m, hpan⟩ | hf
      · exact absurd hpan (by simp)
      · exact hf
    have hc2 : alookup g s2.cache = some (some (st, va)) :=
      evolves_cache env s1 s2 hev g _ hc1
    have hm2 : s2.mtx = Mtx.free := evolves_mtx env s1 s2 hev hm1
    have hcnt : ccount g s2.calls = ccount g s1.calls :=
      evolves_calls env s1 s2 hev g (by rw [hc1]; simp)
    refine ⟨hcnt, st, va, hc1, hkind, hheap1, ?_⟩
    rw [get_cached_run env fuel2 s2 _ g _ hname hm2 hc2]
    exact assignD_valid_ext et2 a2 st va s2 het2 hkind

/-- Witness for C2 at a concrete input: the demo producer resolved once on
a fresh repository, then immediately resolved again into a second slot. -/
theorem C2_memoized_singleton_identity_witness :
    ccount 0 demoAfterFirst.calls = ccount 0 demoAfterFirst.calls ∧
    ∃ st va, alookup 0 demoAfterFirst.cache = some (some (st, va)) ∧ st.kind = .kptr ∧
      (∀ dt1 a1, destOK = .ext (some (dt1, a1)) →
        alookup a1 demoAfterFirst.heap = some (some (st, va))) ∧
      interpGet demoEnv 1 demoAfterFirst (.ext (some (.ptr .iface, 101))) 0
        = (.ok (), { demoAfterFirst with
                     heap := (101, some (st, va)) :: demoAfterFirst.heap }) :=
  C2_memoized_singleton_identity demoEnv 2 0 State.init demoAfterFirst demoAfterFirst
    destOK 0 .iface 101 rfl (by decide) (Evolves.refl demoAfterFirst) (.inl rfl)

/-- C7: whenever `Get` returns a non-nil error — a shape-validation
error, the circular-dependency error, or a producer-originated error —
the heap is unchanged; in particular the slot a caller-supplied pointer
destination points to is left unmodified. -/
theorem C7_failed_get_leaves_destination_unmodified (env : Env) (fuel : Nat)
    (s s' : State) (dest : Dest) (g : Nat) (e : GErr)
    (h : interpGet env fuel s dest g = (.err e, s')) :
    s'.heap = s.heap ∧
    (∀ dt a, dest = .ext (some (dt, a)) →
      alookup a s'.heap = alookup a s.heap) := by
  have H := interpGet_inv env fuel s dest g
  rw [h] at H
  have hh : s'.heap = s.heap := H.2.1 (by simp)
  exact ⟨hh, fun dt a _ => by rw [hh]⟩

/-- Witness for C7 at a concrete input: the failing producer on a fresh
repository. -/
theorem C7_failed_get_leaves_destination_unmodified_witness :
    (interpGet envFail 1 State.init destOK 0).2.heap = State.init.heap ∧
    (∀ dt a, destOK = .ext (some (dt, a)) →
      alookup a (interpGet envFail 1 State.init destOK 0).2.heap
        = alookup a State.init.heap) :=
  C7_failed_get_leaves_destination_unmodified envFail 1 State.init
    (interpGet envFail 1 State.init destOK 0).2 destOK 0 (.userErr 7) rfl

/-- C8: a producer returning an untyped nil value with a nil error drives
`Get`, on a validly shaped destination, into a panic inside `assign`
(`reflect.TypeOf(src)` is nil and `.Kind()` dereferences it); the call
does not return an error value — in particular the `ErrSrcMustBePointer`
branch is never reached — and the nil value was already memoized. -/
theorem C8_nil_result_panics_in_assign :
    interpGet envNil 2 State.init destOK 0
      = (.pan "runtime error: invalid memory address or nil pointer dereference",
         ⟨[(0, none)], [], [], 0, [0], Mtx.free⟩) ∧
    (interpGet envNil 2 State.init destOK 0).1 ≠ .err .srcMustBePointer := by
  decide

/-- C10: `Get` on any `NamedGrabber` with a non-empty name performs the
predefined-grabber lookup by taking `RLock` and releasing with `Unlock`,
the exclusive-mode release; under the documented `sync.RWMutex` semantics
this faults at the `Unlock` even in purely sequential use, killing the
call before any resolution work (the call log never grows and one read
lock is left leaked). -/
theorem C10_named_lookup_lock_fault (env : Env) (fuel : Nat) (s : State)
    (dest : Dest) (g : Nat) (n : String)
    (hname : env.gname g = some n) (hne : ¬ n = "") (hmtx : s.mtx = Mtx.free) :
    interpGet env (fuel + 1) s dest g
      = (.pan "fatal error: sync: Unlock of unlocked RWMutex",
         { s with mtx := ⟨1, false⟩ }) ∧
    (interpGet env (fuel + 1) s dest g).2.calls = s.calls := by
  have key : interpGet env (fuel + 1) s dest g
      = (.pan "fatal error: sync: Unlock of unlocked RWMutex",
         { s with mtx := ⟨1, false⟩ }) := by
    conv_lhs => unfold interpGet
    dsimp only
    rw [hname]
    simp [hne, hmtx, Mtx.rLock, Mtx.wUnlock, Mtx.free]
  exact ⟨key, by rw [key]⟩

/-- Witness for C10 at a concrete input: the predefined "db" grabber on a
fresh repository. -/
theorem C10_named_lookup_lock_fault_witness :
    interpGet envNamed 1 State.init destOK 0
      = (.pan "fatal error: sync: Unlock of unlocked RWMutex",
         { State.init with mtx := ⟨1, false⟩ }) ∧
    (interpGet envNamed 1 State.init destOK 0).2.calls = State.init.calls :=
  C10_named_lookup_lock_fault envNamed 0 State.init destOK 0 "db" (by decide)
    (by decide) rfl

/-- C5 (spec-modelled): with an override recorded for `g`, the overlay's
`Get` assigns the override to a validly shaped destination and succeeds —
only the destination slot changes, while the wrapped repository's cache,
pending set and call log are untouched; this holds for every environment,
hence regardless of what `g`'s real construction would produce; without an
override the overlay delegates to normal resolution unchanged. -/
theorem C5_mock_override_bypasses_resolution (env : Env) (fuel : Nat) (ov : Overlay)
    (s : State) (g : Nat) (st : GoType) (va : Nat) (et : GoType) (a : Nat)
    (hov : alookup g ov.mocks = some (some (st, va)))
    (hst : st.kind = .kptr)
    (het : et.kind = .kiface ∨ et.kind = .kptr) :
    overlayGet env fuel ov s (.ext (some (.ptr et, a))) g
      = (.ok (), { s with heap := (a, some (st, va)) :: s.heap }) ∧
    (∀ g' dest, alookup g' ov.mocks = none →
      overlayGet env fuel ov s dest g' = interpGet env fuel s dest g') := by
  constructor
  · unfold overlayGet
    rw [hov]
    exact assignD_valid_ext et a st va s het hst
  · intro g' dest hg'
    unfold overlayGet
    rw [hg']

/-- Witness for C5 at a concrete input: producer 5 overridden with a
pointer value, resolved into a fresh repository's interface slot. -/
theorem C5_mock_override_bypasses_resolution_witness :
    overlayGet demoEnv 1 ⟨[(5, some (.ptr (.struct_ 9), 77))]⟩ State.init
        (.ext (some (.ptr .iface, 100))) 5
      = (.ok (), { State.init with heap := [(100, some (.ptr (.struct_ 9), 77))] }) ∧
    (∀ g' dest, alookup g' (Overlay.mk [(5, some (.ptr (.struct_ 9), 77))]).mocks = none →
      overlayGet demoEnv 1 ⟨[(5, some (.ptr (.struct_ 9), 77))]⟩ State.init dest g'
        = interpGet demoEnv 1 State.init dest g') :=
  C5_mock_override_bypasses_resolution demoEnv 1 ⟨[(5, some (.ptr (.struct_ 9), 77))]⟩
    State.init 5 (.ptr (.struct_ 9)) 77 .iface 100 rfl rfl (.inl rfl)

/-- C6 (spec-modelled): the first `Mock` for a producer succeeds and
records the value; a second `Mock` for the same producer fails with
`ErrAlreadyMocked` and leaves the overlay unchanged, so the original
value stays recorded and every later overlay `Get` for that producer
still assigns the originally mocked value. -/
theorem C6_mock_is_write_once (ov : Overlay) (g : Nat) (v v2 : IVal)
    (h : alookup g ov.mocks = none) :
    overlayMock ov g v = (.ok (), ⟨(g, v) :: ov.mocks⟩) ∧
    overlayMock ⟨(g, v) :: ov.mocks⟩ g v2 = (.err .alreadyMocked, ⟨(g, v) :: ov.mocks⟩) ∧
    alookup g (Overlay.mk ((g, v) :: ov.mocks)).mocks = some v ∧
    (∀ env fuel s dest,
      overlayGet env fuel ⟨(g, v) :: ov.mocks⟩ s dest g = assignD dest v s) := by
  refine ⟨?_, ?_, ?_, ?_⟩
  · unfold overlayMock
    rw [h]
  · unfold overlayMock
    simp [alookup]
  · simp [alookup]
  · intro env fuel s dest
    unfold overlayGet
    simp [alookup]

/-- Witness for C6 at a concrete input: producer 3 mocked twice on an
empty overlay. -/
theorem C6_mock_is_write_once_witness :
    overlayMock ⟨[]⟩ 3 (some (.ptr .iface, 9))
      = (.ok (), ⟨[(3, some (.ptr .iface, 9))]⟩) ∧
    overlayMock ⟨[(3, some (.ptr .iface, 9))]⟩ 3 none
      = (.err .alreadyMocked, ⟨[(3, some (.ptr .iface, 9))]⟩) ∧
    alookup 3 (Overlay.mk [(3, some (.ptr .iface, 9))]).mocks
      = some (some (.ptr .iface, 9)) ∧
    (∀ env fuel s dest,
      overlayGet env fuel ⟨[(3, some (.ptr .iface, 9))]⟩ s dest 3
        = assignD dest (some (.ptr .iface, 9)) s) :=
  C6_mock_is_write_once ⟨[]⟩ 3 (some (.ptr .iface, 9)) none rfl
